import Mathlib

/-!
Verification of the chat/messaging subsystem of a peer-to-peer clothing
rental marketplace.

The development shallowly embeds:
* the database schema and its triggers from the migration file
  (tables `conversations`, `messages`, `conversation_participants`;
  trigger functions `update_conversation_last_message` and
  `create_conversation_participants`; row-level security policies);
* the messaging client (`ChatService` in `src/lib/chat.ts`):
  `getOrCreateConversation`, `getUserConversations`, `markAsRead`,
  `sendMessage`, the subscription bookkeeping and `cleanup`;
* the rental-request flow (`calculatePrice` and `handleSubmit` in
  `src/components/RentItemModal.tsx`).

Identifiers (uuids) are modelled as natural numbers; timestamps
(`timestamptz` values and JavaScript `Date` instants) as natural numbers
of abstract ticks, except where the price computation needs real
millisecond arithmetic, which uses `Int`.
-/

namespace Dripster

/-- The `message_type` check constraint of the `messages` table. -/
inductive MessageType
  | text
  | system
  | rental_request
  | rental_update
deriving DecidableEq, Repr

/-- The `status` enumeration of the `rentals` table. -/
inductive RentalStatus
  | pending
  | confirmed
  | active
  | completed
  | cancelled
deriving DecidableEq, Repr

/-- A calendar date, as produced by the date inputs of the rental modal
(an ISO `YYYY-MM-DD` string, parsed by `new Date(...)` as midnight UTC). -/
structure CivilDate where
  year : Int
  month : Int
  day : Int
deriving DecidableEq, Repr

/-- The `rental_details` object the rental modal stores in a message's
metadata: `{ start_date, end_date, total_price }`. -/
structure RentalDetails where
  start_date : CivilDate
  end_date : CivilDate
  total_price : Int
deriving DecidableEq, Repr

/-- The `metadata` jsonb column of `messages`; the only shape this
codebase ever writes is `{}` or `{ rental_details: {...} }`. -/
structure Metadata where
  rental_details : Option RentalDetails := none
deriving DecidableEq, Repr

/-- A row of the `conversations` table. -/
structure Conversation where
  id : Nat
  item_id : Nat
  owner_id : Nat
  renter_id : Nat
  rental_id : Option Nat := none
  last_message_at : Nat
  created_at : Nat
  updated_at : Nat
deriving DecidableEq, Repr

/-- A row of the `messages` table. -/
structure Message where
  id : Nat
  conversation_id : Nat
  sender_id : Nat
  content : String
  message_type : MessageType := .text
  metadata : Metadata := {}
  created_at : Nat
deriving DecidableEq, Repr

/-- A row of the `conversation_participants` table. `last_read_at` is a
nullable column (defaulted to `now()` on insert); `Option` records the
absent case the client guards against. -/
structure ConversationParticipant where
  conversation_id : Nat
  user_id : Nat
  joined_at : Nat
  last_read_at : Option Nat
deriving DecidableEq, Repr

/-- A row of the `rentals` table (the columns the rental modal writes). -/
structure Rental where
  item_id : Nat
  renter_id : Nat
  owner_id : Nat
  start_date : CivilDate
  end_date : CivilDate
  total_price : Int
  status : RentalStatus
deriving DecidableEq, Repr

/-- The database state visible to the messaging subsystem. `nextId` is
the id generator (fresh ids for inserted rows). -/
structure DB where
  conversations : List Conversation := []
  messages : List Message := []
  participants : List ConversationParticipant := []
  rentals : List Rental := []
  nextId : Nat := 0
deriving DecidableEq, Repr

/-- Effect of one `INSERT INTO conversation_participants ... ON CONFLICT
(conversation_id, user_id) DO NOTHING` statement on the
`conversation_participants` table: a row for an already-present
(conversation, user) pair leaves the table unchanged; otherwise the row
is appended, column defaults filling `joined_at` and `last_read_at`
with `now()`. -/
def addRow (l : List ConversationParticipant) (convId userId now : Nat) :
    List ConversationParticipant :=
  if l.any fun p => p.conversation_id == convId && p.user_id == userId then l
  else l ++ [{ conversation_id := convId, user_id := userId,
               joined_at := now, last_read_at := some now }]

/-- One `INSERT INTO conversation_participants ... ON CONFLICT
(conversation_id, user_id) DO NOTHING` statement, as issued by the
`create_conversation_participants` trigger function, as a database
transformer. -/
def addParticipant (db : DB) (convId userId now : Nat) : DB :=
  { db with participants := addRow db.participants convId userId now }

/-- Insert into `conversations`, enforcing the `UNIQUE(item_id, owner_id,
renter_id)` constraint (`none` models the uniqueness-violation error),
followed by the `AFTER INSERT` trigger `create_conversation_participants`,
which adds the owner and then the renter as participants. -/
def insertConversation (db : DB) (itemId ownerId renterId now : Nat) :
    Option (Conversation × DB) :=
  if db.conversations.any fun c =>
      c.item_id == itemId && c.owner_id == ownerId && c.renter_id == renterId then
    none
  else
    let c : Conversation :=
      { id := db.nextId, item_id := itemId, owner_id := ownerId,
        renter_id := renterId, last_message_at := now,
        created_at := now, updated_at := now }
    let db1 : DB := { db with conversations := db.conversations ++ [c],
                              nextId := db.nextId + 1 }
    let db2 := addParticipant db1 c.id ownerId now
    let db3 := addParticipant db2 c.id renterId now
    some (c, db3)

/-- Insert into `messages` (the foreign key on `conversation_id` makes the
insert fail when the conversation does not exist), followed by the
`AFTER INSERT` trigger `update_conversation_last_message`, which runs
`UPDATE conversations SET last_message_at = NEW.created_at,
updated_at = NEW.created_at WHERE id = NEW.conversation_id`. -/
def insertMessage (db : DB) (convId senderId : Nat) (content : String)
    (ty : MessageType) (md : Metadata) (now : Nat) : Option (Message × DB) :=
  if db.conversations.any fun c => c.id == convId then
    let m : Message :=
      { id := db.nextId, conversation_id := convId, sender_id := senderId,
        content := content, message_type := ty, metadata := md,
        created_at := now }
    some (m, { db with
      messages := db.messages ++ [m],
      conversations := db.conversations.map fun c =>
        if c.id == convId then
          { c with last_message_at := now, updated_at := now }
        else c,
      nextId := db.nextId + 1 })
  else none

/-- The client `sendMessage`: inserts the message row (the database runs
the timestamp trigger) and returns it; on failure the error is caught
and `null` is returned. -/
def sendMessage (db : DB) (convId senderId : Nat) (content : String)
    (ty : MessageType) (md : Metadata) (now : Nat) : Option (Message × DB) :=
  insertMessage db convId senderId content ty md now

/-- The client `getOrCreateConversation`, with its two storage round
trips made explicit: the initial `SELECT ... .single()` runs against
`dbFind`, the fallback `INSERT` against `dbIns`. A concurrent caller may
commit between the two, so the snapshots can differ; the sequential case
is `dbFind = dbIns` (see `getOrCreateConversation`). On a `createError`
(uniqueness violation) the exception is caught, logged, and `null` is
returned - the code performs no re-fetch. -/
def getOrCreateConversationAt (dbFind dbIns : DB)
    (itemId ownerId renterId now : Nat) : Option Conversation × DB :=
  match dbFind.conversations.find? fun c =>
      c.item_id == itemId && c.owner_id == ownerId && c.renter_id == renterId with
  | some c => (some c, dbIns)
  | none =>
    match insertConversation dbIns itemId ownerId renterId now with
    | some (c, db2) => (some c, db2)
    | none => (none, dbIns)

/-- The client `getOrCreateConversation` run without interference: both
round trips see the same database state. -/
def getOrCreateConversation (db : DB) (itemId ownerId renterId now : Nat) :
    Option Conversation × DB :=
  getOrCreateConversationAt db db itemId ownerId renterId now

/-- The unread-count computation of `getUserConversations`: fetch the
caller's participant row (`.single()`); when it is found and its
`last_read_at` is non-null, count the messages of the conversation with
`sender_id <> userId` and `created_at > last_read_at`; otherwise the
count stays at its initialisation value `0`. -/
def unreadCount (db : DB) (convId userId : Nat) : Nat :=
  match db.participants.find? fun p =>
      p.conversation_id == convId && p.user_id == userId with
  | some p =>
    match p.last_read_at with
    | some t =>
      (db.messages.filter fun m =>
        m.conversation_id == convId && m.sender_id != userId &&
          decide (t < m.created_at)).length
    | none => 0
  | none => 0

/-- Insertion into a list kept sorted by a descending `Nat` key. -/
def insertByDesc (key : α → Nat) (x : α) : List α → List α
  | [] => [x]
  | y :: ys => if key x ≤ key y then y :: insertByDesc key x ys else x :: y :: ys

/-- Sort a list by a descending `Nat` key (models an `ORDER BY ... DESC`
clause). -/
def sortByDesc (key : α → Nat) (l : List α) : List α :=
  l.foldr (insertByDesc key) []

/-- A conversation as returned by `getUserConversations`: the row
enriched with the most recent message and the unread count. -/
structure EnrichedConversation where
  conv : Conversation
  last_message : Option Message
  unread_count : Nat
deriving DecidableEq, Repr

/-- The per-conversation enrichment step of `getUserConversations`: the
last message is fetched with `ORDER BY created_at DESC LIMIT 1`, the
unread count as in `unreadCount`. -/
def enrich (db : DB) (userId : Nat) (c : Conversation) : EnrichedConversation :=
  { conv := c,
    last_message :=
      (sortByDesc (fun m => m.created_at)
        (db.messages.filter fun m => m.conversation_id == c.id)).head?,
    unread_count := unreadCount db c.id userId }

/-- The client `getUserConversations`: the query selects conversations
with `owner_id = userId OR renter_id = userId` and an embedded
`messages!inner(...)` resource - the inner join keeps only conversations
having at least one message - ordered by `last_message_at` descending;
each row is then enriched with its last message and unread count. -/
def getUserConversations (db : DB) (userId : Nat) : List EnrichedConversation :=
  let convs := db.conversations.filter fun c =>
    (c.owner_id == userId || c.renter_id == userId) &&
      db.messages.any fun m => m.conversation_id == c.id
  (sortByDesc (fun c => c.last_message_at) convs).map (enrich db userId)

/-- The client `markAsRead`: `UPDATE conversation_participants SET
last_read_at = now WHERE conversation_id = convId AND user_id = userId`. -/
def markAsRead (db : DB) (convId userId : Nat) (now : Nat) : DB :=
  { db with participants := db.participants.map fun p =>
      if p.conversation_id == convId && p.user_id == userId then
        { p with last_read_at := some now }
      else p }

/-! ### Row-level security policies

The policies of the migration, as predicates over the authenticated
principal `auth.uid()`. Reads return the rows whose `USING` clause
holds; inserts succeed only when the `WITH CHECK` clause holds; updates
apply the `SET` function `f` exactly to the rows matched by both the
client's `WHERE` filter `w` and the `USING` clause. -/

/-- Policy "Users can view their own conversations":
`USING (auth.uid() = owner_id OR auth.uid() = renter_id)`. -/
def rlsReadConversations (db : DB) (uid : Nat) : List Conversation :=
  db.conversations.filter fun c => uid == c.owner_id || uid == c.renter_id

/-- The `EXISTS (SELECT 1 FROM conversations WHERE id = conversation_id
AND (owner_id = auth.uid() OR renter_id = auth.uid()))` subquery shared
by the message policies. -/
def convVisible (db : DB) (uid convId : Nat) : Bool :=
  db.conversations.any fun c =>
    c.id == convId && (c.owner_id == uid || c.renter_id == uid)

/-- Policy "Participants can view messages in their conversations". -/
def rlsReadMessages (db : DB) (uid : Nat) : List Message :=
  db.messages.filter fun m => convVisible db uid m.conversation_id

/-- Policy "Users can create conversations":
`WITH CHECK (auth.uid() = owner_id OR auth.uid() = renter_id)`; on
success the insert proceeds as in `insertConversation`. -/
def rlsInsertConversation (db : DB) (uid : Nat)
    (itemId ownerId renterId now : Nat) : Option (Conversation × DB) :=
  if uid == ownerId || uid == renterId then
    insertConversation db itemId ownerId renterId now
  else none

/-- Policy "Participants can send messages": `WITH CHECK (auth.uid() =
sender_id AND EXISTS (...))`; on success the insert proceeds as in
`insertMessage`. -/
def rlsInsertMessage (db : DB) (uid : Nat) (convId senderId : Nat)
    (content : String) (ty : MessageType) (md : Metadata) (now : Nat) :
    Option (Message × DB) :=
  if uid == senderId && convVisible db uid convId then
    insertMessage db convId senderId content ty md now
  else none

/-- An `UPDATE conversations SET ... WHERE w` issued by principal `uid`,
gated by policy "Participants can update conversations":
`USING (auth.uid() = owner_id OR auth.uid() = renter_id)`. Rows hidden
by the policy are silently skipped. -/
def rlsUpdateConversations (db : DB) (uid : Nat) (w : Conversation → Bool)
    (f : Conversation → Conversation) : DB :=
  { db with conversations := db.conversations.map (fun c =>
      if w c && (c.owner_id == uid || c.renter_id == uid) then f c else c) }

/-- An `UPDATE messages SET ... WHERE w` issued by principal `uid`,
gated by policy "Senders can update their own messages":
`USING (auth.uid() = sender_id)`. -/
def rlsUpdateMessages (db : DB) (uid : Nat) (w : Message → Bool)
    (f : Message → Message) : DB :=
  { db with messages := db.messages.map (fun m =>
      if w m && (m.sender_id == uid) then f m else m) }

/-! ### Subscription bookkeeping of the `ChatService` singleton -/

/-- The live-feed state of a `ChatService` instance: `subscriptions` is
the private `Map<string, subscription>` keyed by conversation id,
`openChannels` the platform-side channels currently open, `nextChannel`
a fresh-channel generator. -/
structure ChatState where
  subscriptions : List (Nat × Nat) := []
  openChannels : List Nat := []
  nextChannel : Nat := 0
deriving DecidableEq, Repr

/-- `Map.set`: any existing entry for the key is replaced. -/
def mapSet (m : List (Nat × Nat)) (k v : Nat) : List (Nat × Nat) :=
  m.filter (fun kv => kv.1 != k) ++ [(k, v)]

/-- `subscribeToMessages(conversationId, callback)`: opens a channel and
records it in the subscription map under the conversation id
(`this.subscriptions.set(conversationId, subscription)`). Returns the
new state and the channel the cancellation handle refers to. A previous
entry for the same conversation is displaced from the map but its
channel stays open. -/
def subscribeToMessages (s : ChatState) (convId : Nat) : ChatState × Nat :=
  ({ subscriptions := mapSet s.subscriptions convId s.nextChannel,
     openChannels := s.openChannels ++ [s.nextChannel],
     nextChannel := s.nextChannel + 1 }, s.nextChannel)

/-- `subscribeToConversations(userId, callback)`: opens a channel and
returns a cancellation handle, without recording the subscription in the
instance map. -/
def subscribeToConversations (s : ChatState) : ChatState × Nat :=
  ({ s with openChannels := s.openChannels ++ [s.nextChannel],
            nextChannel := s.nextChannel + 1 }, s.nextChannel)

/-- Invoking a cancellation handle: `subscription.unsubscribe()` closes
the channel (and, for a message subscription, the closure also deletes
the map entry - not needed by the claims below, which only concern
`cleanup`). -/
def unsubscribeChannel (s : ChatState) (ch : Nat) : ChatState :=
  { s with openChannels := s.openChannels.filter fun c => c != ch }

/-- `cleanup()`: `this.subscriptions.forEach(s => s.unsubscribe());
this.subscriptions.clear()` - every channel recorded in the map is
closed and the map is emptied. -/
def cleanup (s : ChatState) : ChatState :=
  { s with
    openChannels := s.openChannels.filter fun ch =>
      !(s.subscriptions.any fun kv => kv.2 == ch),
    subscriptions := [] }

/-! ### The rental modal (`RentItemModal.tsx`) -/

/-- Days since the Unix epoch of a civil date, modelling the platform's
parsing of an ISO `YYYY-MM-DD` string to midnight UTC (the standard
civil-from-days correspondence of the proleptic Gregorian calendar). -/
def daysFromCivil (dt : CivilDate) : Int :=
  let y := if dt.month ≤ 2 then dt.year - 1 else dt.year
  let era := Int.ediv (if 0 ≤ y then y else y - 399) 400
  let yoe := y - era * 400
  let mp := Int.emod (dt.month + 9) 12
  let doy := Int.ediv (153 * mp + 2) 5 + dt.day - 1
  let doe := yoe * 365 + Int.ediv yoe 4 - Int.ediv yoe 100 + doy
  era * 146097 + doe - 719468

/-- Milliseconds since the epoch of a parsed date (`Date.getTime()`). -/
def dateMs (dt : CivilDate) : Int :=
  daysFromCivil dt * 86400000

/-- `Math.ceil(diff / 86400000)` for an integral millisecond difference
(ceiling division by the positive constant). -/
def ceilDays (diff : Int) : Int :=
  Int.ediv (diff + (86400000 - 1)) 86400000

/-- `calculatePrice` of the rental modal: with both dates present,
`days = Math.ceil((end - start) / 86400000)`; when `days > 0` the total
is `days * price_per_day`, otherwise `0`. -/
def calculatePrice (pricePerDay : Int) (startDate endDate : Option CivilDate) :
    Int :=
  match startDate, endDate with
  | some s, some e =>
    let days := ceilDays (dateMs e - dateMs s)
    if 0 < days then days * pricePerDay else 0
  | _, _ => 0

/-- The columns of a `clothing_items` row used by the rental modal. -/
structure Item where
  id : Nat
  owner_id : Nat
  title : String
  price_per_day : Int
deriving DecidableEq, Repr

/-- The text of the initial rental-request message. The source formats
the two dates with locale-dependent `toLocaleDateString()`, a platform
behaviour abstracted here; the machine-readable dates travel in the
message metadata, which is what the claims inspect. -/
def rentalRequestContent (title : String) (total : Int) : String :=
  "Hi! I would like to rent your " ++ title ++ ". Total: " ++ toString total

/-- `handleSubmit` of the rental modal: reject non-positive totals
without writing anything; otherwise insert the rental with
`status: 'pending'` and the computed `total_price`, then (errors in this
chat block are caught and do not abort the rental) get or create the
conversation for `(item.id, item.owner_id, user.id)` and send the
initial `rental_request` message carrying the rental details as
metadata. -/
def handleSubmit (db : DB) (item : Item) (userId : Nat)
    (startDate endDate : CivilDate) (now : Nat) : Option DB :=
  let totalPrice := calculatePrice item.price_per_day (some startDate) (some endDate)
  if totalPrice ≤ 0 then none
  else
    let rental : Rental :=
      { item_id := item.id, renter_id := userId, owner_id := item.owner_id,
        start_date := startDate, end_date := endDate,
        total_price := totalPrice, status := .pending }
    let db1 : DB := { db with rentals := db.rentals ++ [rental] }
    match getOrCreateConversation db1 item.id item.owner_id userId now with
    | (some conv, db2) =>
      let details : RentalDetails :=
        { start_date := startDate, end_date := endDate,
          total_price := totalPrice }
      let md : Metadata := { rental_details := some details }
      match sendMessage db2 conv.id userId
          (rentalRequestContent item.title totalPrice) .rental_request md now with
      | some (_, db3) => some db3
      | none => some db2
    | (none, db2) => some db2

/-- Unread count as the specification words it: the number of messages
of the conversation authored by someone other than the user with
creation time strictly after the given last-read time. -/
def specUnreadCount (db : DB) (convId userId lastRead : Nat) : Nat :=
  (db.messages.filter fun m =>
    m.conversation_id == convId && m.sender_id != userId &&
      decide (lastRead < m.created_at)).length

/-! ### Concrete database and client states used by witnesses and
counterexamples -/

/-- A database holding one conversation (owner 4, renter 5) and no
messages at all. -/
def messagelessDb : DB :=
  { conversations := [⟨10, 1, 4, 5, none, 0, 0, 0⟩], nextId := 11 }

/-- A database where user 2 owns conversation 0, the renter 3 has sent
one message at time 9, and user 2 last read at time 4. -/
def readTrackDb : DB :=
  { conversations := [⟨0, 1, 2, 3, none, 9, 0, 9⟩],
    messages := [⟨1, 0, 3, "hey", .text, {}, 9⟩],
    participants := [⟨0, 2, 0, some 4⟩, ⟨0, 3, 0, some 9⟩],
    nextId := 2 }

/-- The conversation row of `readTrackDb`. -/
def readTrackConv : Conversation := ⟨0, 1, 2, 3, none, 9, 0, 9⟩

/-- The participant row of user 2 in `readTrackDb`. -/
def readTrackPart : ConversationParticipant := ⟨0, 2, 0, some 4⟩

/-- A database where user 2 owns conversation 0 with a message from
user 3, but user 2 has no participant row. -/
def noParticipantDb : DB :=
  { conversations := [⟨0, 1, 2, 3, none, 9, 0, 9⟩],
    messages := [⟨1, 0, 3, "hey", .text, {}, 9⟩],
    participants := [⟨0, 3, 0, some 0⟩],
    nextId := 2 }

/-- A database holding one conversation (id 0) and nothing else, the
target of a message insert. -/
def msgDb : DB :=
  { conversations := [⟨0, 1, 2, 3, none, 0, 0, 0⟩], nextId := 1 }

/-- The message produced by inserting "hi" from user 2 into
conversation 0 of `msgDb` at time 7. -/
def msgSent : Message := ⟨1, 0, 2, "hi", .text, {}, 7⟩

/-- The database state after the insert of `msgSent` into `msgDb`:
the trigger advanced the conversation timestamps to 7. -/
def msgDb2 : DB :=
  { conversations := [⟨0, 1, 2, 3, none, 7, 0, 7⟩], messages := [msgSent],
    nextId := 2 }

/-- The conversation created by inserting (item 1, owner 2, renter 3)
into the empty database at time 5. -/
def convNew : Conversation := ⟨0, 1, 2, 3, none, 5, 5, 5⟩

/-- The database state after that conversation insert: the trigger has
added the two participant rows. -/
def dbNew : DB :=
  { conversations := [convNew],
    participants := [⟨0, 2, 5, some 5⟩, ⟨0, 3, 5, some 5⟩],
    nextId := 1 }

/-- A database in which conversation 10 links owner 1 and renter 2,
with one message from the owner; user 3 is a stranger to it. -/
def rlsDb : DB :=
  { conversations := [⟨10, 1, 1, 2, none, 0, 0, 0⟩],
    messages := [⟨5, 10, 1, "hello", .text, {}, 1⟩],
    participants := [⟨10, 1, 0, some 0⟩, ⟨10, 2, 0, some 0⟩],
    nextId := 11 }

/-- The conversation row of `rlsDb`. -/
def rlsConv : Conversation := ⟨10, 1, 1, 2, none, 0, 0, 0⟩

/-- The state another caller has committed between the two round trips
of `getOrCreateConversation`: conversation 7 for (item 1, owner 2,
renter 3) already exists. -/
def raceDb : DB :=
  { conversations := [⟨7, 1, 2, 3, none, 0, 0, 0⟩],
    participants := [⟨7, 2, 0, some 0⟩, ⟨7, 3, 0, some 0⟩],
    nextId := 8 }

/-- The listed item of the rental-request scenario: owned by user 2,
priced 100 per day. -/
def itemI : Item := { id := 1, owner_id := 2, title := "Dress",
                      price_per_day := 100 }

/-- The scenario start date 2024-06-01. -/
def juneStart : CivilDate := ⟨2024, 6, 1⟩

/-- The scenario end date 2024-06-03. -/
def juneEnd : CivilDate := ⟨2024, 6, 3⟩

/-! ### Helper lemmas -/

theorem mem_insertByDesc {α : Type _} (key : α → Nat) (x a : α) (l : List α) :
    a ∈ insertByDesc key x l ↔ a = x ∨ a ∈ l := by
  induction l with
  | nil => simp [insertByDesc]
  | cons y ys ih =>
    simp only [insertByDesc]
    split
    · simp only [List.mem_cons, ih]
      tauto
    · simp only [List.mem_cons]

theorem mem_sortByDesc {α : Type _} (key : α → Nat) (a : α) (l : List α) :
    a ∈ sortByDesc key l ↔ a ∈ l := by
  induction l with
  | nil => simp [sortByDesc]
  | cons y ys ih =>
    show a ∈ insertByDesc key y (sortByDesc key ys) ↔ _
    rw [mem_insertByDesc, ih, List.mem_cons]

theorem pairwise_insertByDesc {α : Type _} (key : α → Nat) (x : α) (l : List α)
    (h : l.Pairwise fun a b => key b ≤ key a) :
    (insertByDesc key x l).Pairwise fun a b => key b ≤ key a := by
  induction l with
  | nil => simp [insertByDesc]
  | cons y ys ih =>
    rcases List.pairwise_cons.1 h with ⟨hy, hys⟩
    simp only [insertByDesc]
    split
    · rename_i hxy
      refine List.pairwise_cons.2 ⟨?_, ih hys⟩
      intro b hb
      rcases (mem_insertByDesc key x b ys).1 hb with rfl | hb
      · exact hxy
      · exact hy b hb
    · rename_i hxy
      push_neg at hxy
      refine List.pairwise_cons.2 ⟨?_, h⟩
      intro b hb
      rcases List.mem_cons.1 hb with rfl | hb
      · omega
      · exact le_trans (hy b hb) (le_of_lt hxy)

theorem pairwise_sortByDesc {α : Type _} (key : α → Nat) (l : List α) :
    (sortByDesc key l).Pairwise fun a b => key b ≤ key a := by
  induction l with
  | nil => simp [sortByDesc]
  | cons y ys ih => exact pairwise_insertByDesc key y _ ih

theorem mem_getUserConversations (db : DB) (u : Nat) (e : EnrichedConversation) :
    e ∈ getUserConversations db u ↔
      ∃ c ∈ db.conversations,
        ((c.owner_id = u ∨ c.renter_id = u) ∧
          ∃ m ∈ db.messages, m.conversation_id = c.id) ∧ e = enrich db u c := by
  simp only [getUserConversations, List.mem_map, mem_sortByDesc, List.mem_filter,
    Bool.and_eq_true, Bool.or_eq_true, beq_iff_eq, List.any_eq_true]
  constructor
  · rintro ⟨c, ⟨hc, ho, hm⟩, rfl⟩
    exact ⟨c, hc, ⟨ho, hm⟩, rfl⟩
  · rintro ⟨c, hc, ⟨ho, hm⟩, rfl⟩
    exact ⟨c, ⟨hc, ho, hm⟩, rfl⟩

theorem unread_of_mem (db : DB) (u : Nat) (e : EnrichedConversation)
    (he : e ∈ getUserConversations db u) :
    e.unread_count = unreadCount db e.conv.id u := by
  rcases (mem_getUserConversations db u e).1 he with ⟨c, -, -, rfl⟩
  rfl

theorem find?_after_markAsRead (convId u t : Nat)
    (l : List ConversationParticipant) (q : ConversationParticipant)
    (h : ((l.map fun p =>
        if p.conversation_id == convId && p.user_id == u then
          { p with last_read_at := some t }
        else p).find? fun p =>
          p.conversation_id == convId && p.user_id == u) = some q) :
    q.last_read_at = some t := by
  have hq := List.find?_some h
  rcases List.mem_map.1 (List.mem_of_find?_eq_some h) with ⟨p0, -, rfl⟩
  by_cases hp : (p0.conversation_id == convId && p0.user_id == u) = true
  · rw [if_pos hp]
  · rw [if_neg hp] at hq
    exact absurd hq hp

theorem unreadCount_after_markAsRead (db : DB) (convId u t : Nat)
    (hmsg : ∀ m ∈ db.messages, m.conversation_id = convId → m.created_at ≤ t) :
    unreadCount (markAsRead db convId u t) convId u = 0 := by
  unfold unreadCount
  split
  · rename_i p hp
    have hlt : p.last_read_at = some t :=
      find?_after_markAsRead convId u t db.participants p hp
    rw [hlt]
    show ((markAsRead db convId u t).messages.filter _).length = 0
    rw [List.length_eq_zero, List.filter_eq_nil_iff]
    intro m hm hpred
    simp only [Bool.and_eq_true, beq_iff_eq, bne_iff_ne, decide_eq_true_eq] at hpred
    have hle : m.created_at ≤ t := hmsg m hm hpred.1.1
    omega
  · rfl

/-! ### Claim C2 -/


/-- C2 (counterexample): user 4 owns a conversation that contains no
messages, yet `getUserConversations` returns the empty list - the
`messages!inner` embedded resource is an inner join, so message-less
conversations are dropped, contradicting the claim that every
conversation where the user is owner or renter is returned. -/
theorem messageless_conversation_dropped :
    (∃ c ∈ messagelessDb.conversations, c.owner_id = 4) ∧
      getUserConversations messagelessDb 4 = [] := by decide

/-- C2 (amended): `getUserConversations` returns exactly the
conversations in which the user is the owner or the renter and that
contain at least one message, sorted by `last_message_at` in descending
order. -/
theorem getUserConversations_returns_owned_nonempty (db : DB) (u : Nat) :
    (∀ c : Conversation,
      (∃ e ∈ getUserConversations db u, e.conv = c) ↔
        (c ∈ db.conversations ∧ (c.owner_id = u ∨ c.renter_id = u) ∧
          ∃ m ∈ db.messages, m.conversation_id = c.id)) ∧
    (getUserConversations db u).Pairwise
      (fun a b => b.conv.last_message_at ≤ a.conv.last_message_at) := by
  constructor
  · intro c
    constructor
    · rintro ⟨e, he, hec⟩
      rcases (mem_getUserConversations db u e).1 he with ⟨c2, hc2, hprops, rfl⟩
      have : c2 = c := hec
      subst this
      exact ⟨hc2, hprops.1, hprops.2⟩
    · rintro ⟨hc, ho, hm⟩
      exact ⟨enrich db u c,
        (mem_getUserConversations db u (enrich db u c)).2 ⟨c, hc, ⟨ho, hm⟩, rfl⟩, rfl⟩
  · unfold getUserConversations
    exact List.Pairwise.map _ (fun _ _ h => h) (pairwise_sortByDesc _ _)

/-! ### Claim C6 -/


/-- C6: for every conversation `getUserConversations` reports to user
`u`, when `u` has a participant row with a last-read time `t`, the
reported unread count equals the number of messages of that
conversation whose sender is not `u` and whose creation time is
strictly greater than `t` (the count the specification describes,
`specUnreadCount`). -/
theorem reported_unread_matches_spec (db : DB) (u : Nat)
    (e : EnrichedConversation) (p : ConversationParticipant) (t : Nat)
    (he : e ∈ getUserConversations db u)
    (hp : (db.participants.find? fun q =>
        q.conversation_id == e.conv.id && q.user_id == u) = some p)
    (ht : p.last_read_at = some t) :
    e.unread_count = specUnreadCount db e.conv.id u t := by
  rw [unread_of_mem db u e he]
  unfold unreadCount specUnreadCount
  simp only [hp, ht]

/-- C6 (witness): in `readTrackDb`, the conversation is reported to
user 2 with unread count matching the spec formula at last-read time 4
(both equal 1: the single message from user 3 at time 9). -/
theorem reported_unread_matches_spec_witness :
    enrich readTrackDb 2 readTrackConv ∈ getUserConversations readTrackDb 2 ∧
      (readTrackDb.participants.find? fun q =>
          q.conversation_id == (enrich readTrackDb 2 readTrackConv).conv.id &&
          q.user_id == 2) = some readTrackPart ∧
      readTrackPart.last_read_at = some 4 ∧
      (enrich readTrackDb 2 readTrackConv).unread_count =
        specUnreadCount readTrackDb
          (enrich readTrackDb 2 readTrackConv).conv.id 2 4 :=
  ⟨by decide, by decide, by decide,
    reported_unread_matches_spec readTrackDb 2 (enrich readTrackDb 2 readTrackConv)
      readTrackPart 4 (by decide) (by decide) (by decide)⟩

/-! ### Claim C7 -/

/-- C7: after `markAsRead(C, u)` at a time `t` no message of `C`
postdates, the unread count of `u` on `C` is `0`, and marking as read
again at any later time `t2` leaves it `0`. -/
theorem markAsRead_clears_unread (db : DB) (convId u t t2 : Nat)
    (hmsg : ∀ m ∈ db.messages, m.conversation_id = convId → m.created_at ≤ t)
    (ht : t ≤ t2) :
    unreadCount (markAsRead db convId u t) convId u = 0 ∧
      unreadCount (markAsRead (markAsRead db convId u t) convId u t2)
        convId u = 0 :=
  ⟨unreadCount_after_markAsRead db convId u t hmsg,
    unreadCount_after_markAsRead (markAsRead db convId u t) convId u t2
      (fun m hm hc => le_trans (hmsg m hm hc) ht)⟩

/-- C7 (witness): in `readTrackDb` (latest message at time 9), marking
as read at time 20 and again at 21 leaves user 2 with unread count 0. -/
theorem markAsRead_clears_unread_witness :
    (∀ m ∈ readTrackDb.messages, m.conversation_id = 0 → m.created_at ≤ 20) ∧
      (20 : Nat) ≤ 21 ∧
      unreadCount (markAsRead readTrackDb 0 2 20) 0 2 = 0 ∧
      unreadCount (markAsRead (markAsRead readTrackDb 0 2 20) 0 2 21) 0 2 = 0 :=
  ⟨by decide, by decide,
    (markAsRead_clears_unread readTrackDb 0 2 20 21 (by decide) (by decide)).1,
    (markAsRead_clears_unread readTrackDb 0 2 20 21 (by decide) (by decide)).2⟩

/-! ### Claim C10 -/


/-- C10: for every conversation `getUserConversations` reports to user
`u`, when the participant row of `u` cannot be fetched, or it exists
but its `last_read_at` is null, the reported unread count is `0`,
whatever messages from other senders exist. -/
theorem unread_defaults_to_zero (db : DB) (u : Nat) (e : EnrichedConversation)
    (he : e ∈ getUserConversations db u)
    (hp : (db.participants.find? fun q =>
        q.conversation_id == e.conv.id && q.user_id == u) = none ∨
      ∃ p, (db.participants.find? fun q =>
          q.conversation_id == e.conv.id && q.user_id == u) = some p ∧
        p.last_read_at = none) :
    e.unread_count = 0 := by
  rw [unread_of_mem db u e he]
  unfold unreadCount
  rcases hp with h | ⟨p, h, hl⟩
  · simp only [h]
  · simp only [h, hl]

/-- C10 (witness): in `noParticipantDb` user 2 has no participant row
for conversation 0 yet a message from user 3 exists; the reported
unread count is still 0. -/
theorem unread_defaults_to_zero_witness :
    enrich noParticipantDb 2 ⟨0, 1, 2, 3, none, 9, 0, 9⟩ ∈
        getUserConversations noParticipantDb 2 ∧
      (noParticipantDb.participants.find? fun q =>
          q.conversation_id ==
            (enrich noParticipantDb 2 ⟨0, 1, 2, 3, none, 9, 0, 9⟩).conv.id &&
          q.user_id == 2) = none ∧
      (enrich noParticipantDb 2 ⟨0, 1, 2, 3, none, 9, 0, 9⟩).unread_count = 0 :=
  ⟨by decide, by decide,
    unread_defaults_to_zero noParticipantDb 2 _ (by decide) (Or.inl (by decide))⟩


/-! ### Claims C4 and C5 -/

theorem addRow_not_present (l : List ConversationParticipant)
    (convId userId now : Nat)
    (h : ∀ p ∈ l, ¬(p.conversation_id = convId ∧ p.user_id = userId)) :
    addRow l convId userId now =
      l ++ [{ conversation_id := convId, user_id := userId,
              joined_at := now, last_read_at := some now }] := by
  have hno : ¬((l.any fun p =>
      p.conversation_id == convId && p.user_id == userId) = true) := by
    simp only [List.any_eq_true, Bool.and_eq_true, beq_iff_eq]
    rintro ⟨p, hp, h1, h2⟩
    exact h p hp ⟨h1, h2⟩
  unfold addRow
  rw [if_neg hno]

theorem addRow_present (l : List ConversationParticipant)
    (convId userId now : Nat)
    (h : ∃ p ∈ l, p.conversation_id = convId ∧ p.user_id = userId) :
    addRow l convId userId now = l := by
  have hyes : (l.any fun p =>
      p.conversation_id == convId && p.user_id == userId) = true := by
    rcases h with ⟨p, hp, h1, h2⟩
    rw [List.any_eq_true]
    exact ⟨p, hp, by simp [h1, h2]⟩
  unfold addRow
  rw [if_pos hyes]

theorem addParticipant_of_present (db : DB) (convId userId now : Nat)
    (h : ∃ p ∈ db.participants,
      p.conversation_id = convId ∧ p.user_id = userId) :
    addParticipant db convId userId now = db := by
  show { db with
    participants := addRow db.participants convId userId now } = db
  rw [addRow_present db.participants convId userId now h]

/-- C4: when a message insert succeeds, the inserted message carries the
given creation time, and every conversation row with the message's
conversation id in the resulting database has `last_message_at` and
`updated_at` equal to that creation time. As the statement quantifies
over an arbitrary prior database state, it holds after each insert of
any sequence of inserts, with no staleness window: the trigger runs
inside the insert. -/
theorem message_insert_advances_conversation (db : DB) (convId senderId : Nat)
    (content : String) (ty : MessageType) (md : Metadata) (now : Nat)
    (m : Message) (db2 : DB)
    (h : insertMessage db convId senderId content ty md now = some (m, db2)) :
    m.created_at = now ∧
      ∀ c ∈ db2.conversations, c.id = convId →
        c.last_message_at = now ∧ c.updated_at = now := by
  unfold insertMessage at h
  split at h
  · simp only [Option.some.injEq, Prod.mk.injEq] at h
    obtain ⟨hm, hdb⟩ := h
    subst hm
    subst hdb
    refine ⟨rfl, ?_⟩
    intro c hc hid
    rcases List.mem_map.1 hc with ⟨c0, -, rfl⟩
    by_cases h0 : (c0.id == convId) = true
    · rw [if_pos h0]
      exact ⟨rfl, rfl⟩
    · rw [if_neg h0] at hid
      exact absurd (beq_iff_eq.2 hid) h0
  · simp at h

/-- C4 (witness): inserting a message into conversation 0 of `msgDb` at
time 7 yields `msgDb2`, whose conversation row carries
`last_message_at = updated_at = 7`. -/
theorem message_insert_advances_conversation_witness :
    insertMessage msgDb 0 2 "hi" .text {} 7 = some (msgSent, msgDb2) ∧
      msgSent.created_at = 7 ∧
      ∀ c ∈ msgDb2.conversations, c.id = 0 →
        c.last_message_at = 7 ∧ c.updated_at = 7 :=
  ⟨by decide,
    (message_insert_advances_conversation msgDb 0 2 "hi" .text {} 7 msgSent
      msgDb2 (by decide)).1,
    (message_insert_advances_conversation msgDb 0 2 "hi" .text {} 7 msgSent
      msgDb2 (by decide)).2⟩

/-- C5 (counterexample): inserting a conversation whose owner and renter
are the same user 5 creates exactly one participant row, not two - the
second trigger insert hits the (conversation, user) conflict and is
skipped. -/
theorem self_conversation_single_participant :
    (insertConversation ({} : DB) 1 5 5 0).map
      (fun r => (r.2.participants.filter fun p =>
        p.conversation_id == r.1.id).map fun p => p.user_id) = some [5] := by
  decide

/-- C5 (amended): a successful conversation insert creates a participant
row for the owner and one for the renter - exactly two rows when
owner and renter differ, a single row when they coincide - and a
repeated participant insert for an already-present (conversation, user)
pair is a no-op leaving the database unchanged, hence exactly one row
for that pair. The hypothesis `hfk` is the foreign-key invariant: no
pre-existing participant row references the fresh conversation id. -/
theorem conversation_insert_creates_participants (db : DB)
    (itemId ownerId renterId now : Nat) (c : Conversation) (db2 : DB)
    (h : insertConversation db itemId ownerId renterId now = some (c, db2))
    (hfk : ∀ p ∈ db.participants, p.conversation_id ≠ c.id) :
    (ownerId ≠ renterId →
      (db2.participants.filter fun p => p.conversation_id == c.id).map
        (fun p => p.user_id) = [ownerId, renterId]) ∧
    (ownerId = renterId →
      (db2.participants.filter fun p => p.conversation_id == c.id).map
        (fun p => p.user_id) = [ownerId]) ∧
    ∀ t2, addParticipant db2 c.id ownerId t2 = db2 ∧
          addParticipant db2 c.id renterId t2 = db2 := by
  unfold insertConversation at h
  split at h
  · simp at h
  · simp only [Option.some.injEq, Prod.mk.injEq] at h
    obtain ⟨hc, hdb⟩ := h
    subst hc
    dsimp only at hfk ⊢
    have hfk2 : ∀ p ∈ db.participants, p.conversation_id ≠ db.nextId := hfk
    have hfilnil : db.participants.filter
        (fun p => p.conversation_id == db.nextId) = [] := by
      rw [List.filter_eq_nil_iff]
      intro p hp hpred
      exact hfk2 p hp (beq_iff_eq.1 hpred)
    have hpart0 : db2.participants =
        addRow (addRow db.participants db.nextId ownerId now)
          db.nextId renterId now := by
      rw [← hdb]
      rfl
    rw [addRow_not_present _ _ _ _
      (fun p hp hpair => hfk2 p hp hpair.1)] at hpart0
    by_cases hor : ownerId = renterId
    · subst hor
      rw [addRow_present _ _ _ _
        ⟨⟨db.nextId, ownerId, now, some now⟩,
          List.mem_append_right _ (List.mem_singleton.2 rfl),
          rfl, rfl⟩] at hpart0
      refine ⟨fun hne => absurd rfl hne, fun _ => ?_, fun t2 => ⟨?_, ?_⟩⟩
      · rw [hpart0, List.filter_append, hfilnil, List.nil_append]
        simp
      · exact addParticipant_of_present db2 _ _ _
          ⟨⟨db.nextId, ownerId, now, some now⟩,
            by rw [hpart0]
               exact List.mem_append_right _ (List.mem_singleton.2 rfl),
            rfl, rfl⟩
      · exact addParticipant_of_present db2 _ _ _
          ⟨⟨db.nextId, ownerId, now, some now⟩,
            by rw [hpart0]
               exact List.mem_append_right _ (List.mem_singleton.2 rfl),
            rfl, rfl⟩
    · rw [addRow_not_present _ _ _ _
        (fun p hp hpair => by
          rcases List.mem_append.1 hp with hp1 | hp1
          · exact hfk2 p hp1 hpair.1
          · rw [List.mem_singleton.1 hp1] at hpair
            exact hor hpair.2)] at hpart0
      refine ⟨fun _ => ?_, fun heq => absurd heq hor, fun t2 => ⟨?_, ?_⟩⟩
      · rw [hpart0, List.filter_append, List.filter_append, hfilnil,
          List.nil_append]
        simp
      · exact addParticipant_of_present db2 _ _ _
          ⟨⟨db.nextId, ownerId, now, some now⟩,
            by rw [hpart0]
               exact List.mem_append_left _
                 (List.mem_append_right _ (List.mem_singleton.2 rfl)),
            rfl, rfl⟩
      · exact addParticipant_of_present db2 _ _ _
          ⟨⟨db.nextId, renterId, now, some now⟩,
            by rw [hpart0]
               exact List.mem_append_right _ (List.mem_singleton.2 rfl),
            rfl, rfl⟩

/-- C5 (witness): inserting (item 1, owner 2, renter 3) into the empty
database at time 5 yields `dbNew` with participant rows for users 2 and
3, and re-adding either pair at any later time is a no-op. -/
theorem conversation_insert_creates_participants_witness :
    insertConversation ({} : DB) 1 2 3 5 = some (convNew, dbNew) ∧
      (∀ p ∈ ({} : DB).participants, p.conversation_id ≠ convNew.id) ∧
      ((2 : Nat) ≠ 3 →
        (dbNew.participants.filter fun p =>
          p.conversation_id == convNew.id).map (fun p => p.user_id) = [2, 3]) ∧
      ∀ t2, addParticipant dbNew convNew.id 2 t2 = dbNew ∧
            addParticipant dbNew convNew.id 3 t2 = dbNew :=
  ⟨by decide, by decide,
    (conversation_insert_creates_participants ({} : DB) 1 2 3 5 convNew dbNew
      (by decide) (by decide)).1,
    (conversation_insert_creates_participants ({} : DB) 1 2 3 5 convNew dbNew
      (by decide) (by decide)).2.2⟩


/-! ### Claim C8 -/

theorem filter_update_conversations (c : Conversation) (p : Nat)
    (hpo : p ≠ c.owner_id) (hpr : p ≠ c.renter_id)
    (w : Conversation → Bool) (f : Conversation → Conversation)
    (hf : ∀ x, (f x).id = x.id) :
    ∀ l : List Conversation, (∀ x ∈ l, x.id = c.id → x = c) →
      ((l.map fun x =>
        if w x && (x.owner_id == p || x.renter_id == p) then f x else x).filter
          fun x => x.id == c.id) = l.filter fun x => x.id == c.id := by
  intro l
  induction l with
  | nil => intro _; rfl
  | cons x xs ih =>
    intro hid
    have hxs := fun y hy => hid y (List.mem_cons_of_mem x hy)
    rw [List.map_cons, List.filter_cons, List.filter_cons]
    by_cases hx : x.id = c.id
    · have hxc : x = c := hid x (List.mem_cons_self x xs) hx
      have hpol : (w x && (x.owner_id == p || x.renter_id == p)) = false := by
        have h1 : (x.owner_id == p) = false :=
          beq_eq_false_iff_ne.2 (by rw [hxc]; exact fun hh => hpo hh.symm)
        have h2 : (x.renter_id == p) = false :=
          beq_eq_false_iff_ne.2 (by rw [hxc]; exact fun hh => hpr hh.symm)
        rw [h1, h2]
        simp
      rw [hpol, if_neg Bool.false_ne_true, ih hxs]
    · have hq : (x.id == c.id) = false := beq_eq_false_iff_ne.2 hx
      have hgid : ((if (w x && (x.owner_id == p || x.renter_id == p)) = true
          then f x else x).id) = x.id := by
        split
        · exact hf x
        · rfl
      rw [show ((if (w x && (x.owner_id == p || x.renter_id == p)) = true
          then f x else x).id == c.id) = false from by rw [hgid, hq]]
      rw [hq, if_neg Bool.false_ne_true, if_neg Bool.false_ne_true]
      exact ih hxs

theorem filter_update_messages (c : Conversation) (p : Nat)
    (w : Message → Bool) (f : Message → Message)
    (hf : ∀ x, (f x).conversation_id = x.conversation_id) :
    ∀ l : List Message, (∀ m ∈ l, m.conversation_id = c.id → m.sender_id ≠ p) →
      ((l.map fun m =>
        if w m && (m.sender_id == p) then f m else m).filter
          fun m => m.conversation_id == c.id) =
        l.filter fun m => m.conversation_id == c.id := by
  intro l
  induction l with
  | nil => intro _; rfl
  | cons x xs ih =>
    intro hsd
    have hxs := fun y hy => hsd y (List.mem_cons_of_mem x hy)
    rw [List.map_cons, List.filter_cons, List.filter_cons]
    by_cases hx : x.conversation_id = c.id
    · have hpol : (w x && (x.sender_id == p)) = false := by
        rw [beq_eq_false_iff_ne.2 (hsd x (List.mem_cons_self x xs) hx)]
        simp
      rw [hpol, if_neg Bool.false_ne_true, ih hxs]
    · have hq : (x.conversation_id == c.id) = false := beq_eq_false_iff_ne.2 hx
      have hgid : ((if (w x && (x.sender_id == p)) = true
          then f x else x).conversation_id) = x.conversation_id := by
        split
        · exact hf x
        · rfl
      rw [show ((if (w x && (x.sender_id == p)) = true
          then f x else x).conversation_id == c.id) = false from by
            rw [hgid, hq]]
      rw [hq, if_neg Bool.false_ne_true, if_neg Bool.false_ne_true]
      exact ih hxs

/-- C8: a principal `p` who is neither the owner nor the renter of
conversation `c` reads zero rows of `c` and of its messages; a create
of `c` or of a message into `c` by `p` is rejected (the `WITH CHECK`
clause fails, so nothing is written); and an update by `p`, whatever
client filter `w` and `SET` function `f` (which does not touch the key
columns), leaves the rows of `c` and of its messages exactly as they
were - no partial application. `hid` is the primary-key invariant on
conversation ids; `hWF` the insert-policy invariant that every message
of `c` was sent by its owner or renter. -/
theorem rls_blocks_nonparticipant (db : DB) (p : Nat) (c : Conversation)
    (hc : c ∈ db.conversations)
    (hid : ∀ x ∈ db.conversations, x.id = c.id → x = c)
    (hpo : p ≠ c.owner_id) (hpr : p ≠ c.renter_id)
    (hWF : ∀ m ∈ db.messages, m.conversation_id = c.id →
      m.sender_id = c.owner_id ∨ m.sender_id = c.renter_id) :
    ((rlsReadConversations db p).filter fun x => x.id == c.id) = [] ∧
    ((rlsReadMessages db p).filter fun m => m.conversation_id == c.id) = [] ∧
    (∀ now, rlsInsertConversation db p c.item_id c.owner_id c.renter_id now
      = none) ∧
    (∀ senderId content ty md now,
      rlsInsertMessage db p c.id senderId content ty md now = none) ∧
    (∀ w f, (∀ x, (f x).id = x.id) →
      (rlsUpdateConversations db p w f).conversations.filter
        (fun x => x.id == c.id) =
        db.conversations.filter fun x => x.id == c.id) ∧
    (∀ w f, (∀ x, (f x).conversation_id = x.conversation_id) →
      (rlsUpdateMessages db p w f).messages.filter
        (fun m => m.conversation_id == c.id) =
        db.messages.filter fun m => m.conversation_id == c.id) := by
  have hvis : convVisible db p c.id = false := by
    rw [← Bool.not_eq_true, convVisible, List.any_eq_true]
    rintro ⟨x, hx, hpred⟩
    simp only [Bool.and_eq_true, Bool.or_eq_true, beq_iff_eq] at hpred
    have hxc : x = c := hid x hx hpred.1
    subst hxc
    rcases hpred.2 with hh | hh
    · exact hpo hh.symm
    · exact hpr hh.symm
  refine ⟨?_, ?_, ?_, ?_, ?_, ?_⟩
  · rw [List.filter_eq_nil_iff]
    intro x hx hq
    rcases List.mem_filter.1 hx with ⟨hxm, hpol⟩
    have hxc : x = c := hid x hxm (beq_iff_eq.1 hq)
    subst hxc
    simp only [Bool.or_eq_true, beq_iff_eq] at hpol
    rcases hpol with hh | hh
    · exact hpo hh
    · exact hpr hh
  · rw [List.filter_eq_nil_iff]
    intro m hm hq
    rcases List.mem_filter.1 hm with ⟨-, hpol⟩
    rw [beq_iff_eq.1 hq, hvis] at hpol
    exact Bool.false_ne_true hpol
  · intro now
    unfold rlsInsertConversation
    rw [if_neg]
    simp only [Bool.or_eq_true, beq_iff_eq, not_or]
    exact ⟨hpo, hpr⟩
  · intro senderId content ty md now
    unfold rlsInsertMessage
    rw [if_neg]
    rw [Bool.and_eq_true, not_and]
    intro _
    rw [hvis]
    exact Bool.false_ne_true
  · intro w f hf
    exact filter_update_conversations c p hpo hpr w f hf db.conversations hid
  · intro w f hf
    exact filter_update_messages c p w f hf db.messages
      (fun m hm hmc => by
        rcases hWF m hm hmc with hh | hh
        · rw [hh]; exact fun hh2 => hpo hh2.symm
        · rw [hh]; exact fun hh2 => hpr hh2.symm)

/-- C8 (witness): user 3 is neither owner 1 nor renter 2 of
conversation 10 in `rlsDb`, and the policy layer hides and protects it
as the claim states. -/
theorem rls_blocks_nonparticipant_witness :
    rlsConv ∈ rlsDb.conversations ∧
    (∀ x ∈ rlsDb.conversations, x.id = rlsConv.id → x = rlsConv) ∧
    (3 : Nat) ≠ rlsConv.owner_id ∧
    (3 : Nat) ≠ rlsConv.renter_id ∧
    (∀ m ∈ rlsDb.messages, m.conversation_id = rlsConv.id →
      m.sender_id = rlsConv.owner_id ∨ m.sender_id = rlsConv.renter_id) ∧
    (((rlsReadConversations rlsDb 3).filter
        fun x => x.id == rlsConv.id) = [] ∧
      ((rlsReadMessages rlsDb 3).filter
        fun m => m.conversation_id == rlsConv.id) = [] ∧
      (∀ now, rlsInsertConversation rlsDb 3 rlsConv.item_id rlsConv.owner_id
        rlsConv.renter_id now = none) ∧
      (∀ senderId content ty md now,
        rlsInsertMessage rlsDb 3 rlsConv.id senderId content ty md now
          = none) ∧
      (∀ w f, (∀ x, (f x).id = x.id) →
        (rlsUpdateConversations rlsDb 3 w f).conversations.filter
          (fun x => x.id == rlsConv.id) =
          rlsDb.conversations.filter fun x => x.id == rlsConv.id) ∧
      (∀ w f, (∀ x, (f x).conversation_id = x.conversation_id) →
        (rlsUpdateMessages rlsDb 3 w f).messages.filter
          (fun m => m.conversation_id == rlsConv.id) =
          rlsDb.messages.filter fun m => m.conversation_id == rlsConv.id)) :=
  ⟨by decide, by decide, by decide, by decide, by decide,
    rls_blocks_nonparticipant rlsDb 3 rlsConv (by decide) (by decide)
      (by decide) (by decide) (by decide)⟩

/-! ### Claim C1 -/

/-- C1 (refuted): the second of two racing callers - whose initial
`SELECT` saw no conversation for (item 1, owner 2, renter 3) but whose
`INSERT` runs after the first caller committed conversation 7 - gets
`null` back: the uniqueness-violation error is caught and logged but
the code never re-fetches the existing row, so the two callers do not
end up referencing the same row identifier, contrary to the claim. -/
theorem duplicate_insert_returns_null :
    (getOrCreateConversationAt ({} : DB) raceDb 1 2 3 9).1 = none ∧
      ∃ c ∈ raceDb.conversations,
        c.item_id = 1 ∧ c.owner_id = 2 ∧ c.renter_id = 3 := by
  decide

/-! ### Claim C3 -/

/-- C3 (counterexample): from a fresh client state, one call to
`subscribeToConversations` followed by `cleanup()` leaves the opened
channel still live - `subscribeToConversations` never records its
subscription in the instance map that `cleanup` iterates, so `cleanup`
does not release it, contrary to the claim. -/
theorem conversations_channel_survives_cleanup :
    (cleanup (subscribeToConversations ({} : ChatState)).1).openChannels =
      [(subscribeToConversations ({} : ChatState)).2] := by
  decide

theorem tracked_channel_closed (s : ChatState) (kv : Nat × Nat)
    (h : kv ∈ s.subscriptions) : kv.2 ∉ (cleanup s).openChannels := by
  intro hmem
  rcases List.mem_filter.1 hmem with ⟨-, hcond⟩
  have hany : (s.subscriptions.any fun q => q.2 == kv.2) = true :=
    List.any_eq_true.2 ⟨kv, h, by simp⟩
  rw [hany] at hcond
  exact Bool.false_ne_true hcond

/-- C3 (amended): `cleanup()` empties the instance subscription map and
closes every channel recorded in it - in particular the channel of the
most recent `subscribeToMessages` call per conversation - and calling
`cleanup()` again is a safe no-op; channels opened by
`subscribeToConversations` (and message channels displaced by a later
subscription to the same conversation) are not recorded in the map and
must be released through their own cancellation handles. -/
theorem cleanup_releases_tracked (s : ChatState) :
    (cleanup s).subscriptions = [] ∧
    (∀ kv ∈ s.subscriptions, kv.2 ∉ (cleanup s).openChannels) ∧
    (∀ convId, (subscribeToMessages s convId).2 ∉
      (cleanup (subscribeToMessages s convId).1).openChannels) ∧
    cleanup (cleanup s) = cleanup s := by
  refine ⟨rfl, fun kv h => tracked_channel_closed s kv h, ?_, ?_⟩
  · intro convId
    exact tracked_channel_closed (subscribeToMessages s convId).1
      (convId, s.nextChannel)
      (List.mem_append_right _ (List.mem_singleton.2 rfl))
  · cases s with
    | mk subs chans nxt => simp [cleanup]

/-! ### Claim C9 -/

/-- C9: submitting a rental request for `itemI` (price 100 per day) by
renter 3 with dates 2024-06-01 to 2024-06-03 persists a rental with
`total_price = 200` and status `pending`, creates the conversation
between renter 3 and owner 2 for item 1, and appends to it a message of
type `rental_request` whose metadata carries the start date, end date
and total price 200. -/
theorem rental_request_scenario :
    ∃ db, handleSubmit ({} : DB) itemI 3 juneStart juneEnd 50 = some db ∧
      (∃ r ∈ db.rentals, r.total_price = 200 ∧ r.status = .pending) ∧
      ∃ c ∈ db.conversations, c.item_id = 1 ∧ c.owner_id = 2 ∧
        c.renter_id = 3 ∧
        ∃ m ∈ db.messages, m.conversation_id = c.id ∧
          m.message_type = .rental_request ∧
          m.metadata.rental_details = some ⟨juneStart, juneEnd, 200⟩ := by
  refine ⟨_, rfl, ?_⟩
  decide

end Dripster
